import Mathlib

/-!
Shallow embedding of `clonepulse` (dashboard generator `generate_clone_dashboard.py`
and, where noted, the ingestion pipeline modelled from the spec).

Conventions of the embedding:
* Instants (pandas `Timestamp`s) are integers counting seconds since the Unix
  epoch (1970-01-01T00:00:00Z); calendar days are integers counting days since
  that epoch.  1970-01-01 was a Thursday, so Python's `weekday()` (Monday = 0)
  of day `d` is `(d + 3) mod 7`.
* Strings that the program parses into dates are modelled by their parse
  outcome: `none` when `pd.to_datetime` would raise, `some d` when the string
  parses to (the midnight of) day `d`.
* JSON values are modelled structurally: a field that may be absent is an
  `Option`, a value that may fail `isinstance` checks carries that possibility
  in its type.
-/

namespace ClonePulse

/-- Decidable equality of `Except` values, used to evaluate the model on
concrete inputs. -/
instance {ε α : Type} [DecidableEq ε] [DecidableEq α] : DecidableEq (Except ε α) := fun a b =>
  match a, b with
  | .ok x, .ok y =>
    if h : x = y then isTrue (by rw [h]) else isFalse (fun he => h (by injection he))
  | .error e, .error f =>
    if h : e = f then isTrue (by rw [h]) else isFalse (fun he => h (by injection he))
  | .ok _, .error _ => isFalse (fun he => Except.noConfusion he)
  | .error _, .ok _ => isFalse (fun he => Except.noConfusion he)

/-- Calendar day of a timestamp (`pd.Timestamp.normalize`): floor of
seconds-since-epoch divided by 86400; `Int.ediv` by a positive number is floor
division. -/
def dayOf (ts : Int) : Int := ts.ediv 86400

/-- Python / pandas `weekday()` of an epoch day number, Monday = 0.
Day 0 (1970-01-01) was a Thursday, weekday 3. -/
def weekdayOf (d : Int) : Int := (d + 3) % 7

/-- `df["timestamp"] - pd.to_timedelta(weekday, unit="D")` normalized:
the Monday on or before day `d`. -/
def weekStartDay (d : Int) : Int := d - weekdayOf d

/-- One raw entry of the `daily` JSON list.  `timestamp` is `none` when
`pd.to_datetime(row["timestamp"], utc=True)` would raise (missing key,
non-dict row, unparseable string), otherwise the parsed instant in seconds.
`count`/`uniques` are `none` when the JSON value is absent or fails
`isinstance(-, int)`. -/
structure RawRow where
  timestamp : Option Int
  count : Option Int
  uniques : Option Int
deriving DecidableEq

/-- A validated daily row (timestamp in seconds, non-negative ints). -/
structure Row where
  timestamp : Int
  count : Int
  uniques : Int
deriving DecidableEq

/-- Abnormal terminations of the dashboard script: `sys.exit(code)` calls and
the exceptions it can raise (`ValueError`s from row/`--start` validation and
the `KeyError` pandas raises when sorting a column-less frame by `"date"`). -/
inductive Err where
  | sysExit (code : Int)
  | invalidTimestamp (i : Nat)
  | futureTimestamp (i : Nat)
  | invalidCount (i : Nat)
  | invalidUniques (i : Nat)
  | invalidStart
  | keyErrorDate
deriving DecidableEq

/-- The validation loop over `daily` rows (lines 180-197 of
`generate_clone_dashboard.py`), starting at row index `i`: the first failing
row raises a `ValueError`; otherwise the typed rows are collected in order. -/
def validateFrom (now : Int) (i : Nat) : List RawRow → Except Err (List Row)
  | [] => .ok []
  | r :: rest =>
    match r.timestamp with
    | none => .error (.invalidTimestamp i)
    | some ts =>
      if now < ts then .error (.futureTimestamp i)
      else
        match r.count with
        | none => .error (.invalidCount i)
        | some c =>
          if c < 0 then .error (.invalidCount i)
          else
            match r.uniques with
            | none => .error (.invalidUniques i)
            | some u =>
              if u < 0 then .error (.invalidUniques i)
              else
                match validateFrom now (i + 1) rest with
                | .error e => .error e
                | .ok rows => .ok (⟨ts, c, u⟩ :: rows)

/-- `week_start` assigned to a validated row: Monday of the row's UTC day. -/
def weekStartOfRow (r : Row) : Int := weekStartDay (dayOf r.timestamp)

/-- Insert a key into a sorted duplicate-free list of keys. -/
def insertKey (k : Int) : List Int → List Int
  | [] => [k]
  | x :: xs => if k < x then k :: x :: xs else if k = x then x :: xs else x :: insertKey k xs

/-- The sorted distinct keys of a list, ascending (the index a pandas
`groupby` produces with its default `sort=True`). -/
def sortedKeys : List Int → List Int
  | [] => []
  | k :: ks => insertKey k (sortedKeys ks)

/-- One row of `weekly_data` right after
`df.groupby("week_start")[["count","uniques"]].sum()`. -/
structure Bucket where
  week_start : Int
  count : Int
  uniques : Int
deriving DecidableEq

/-- `df.groupby("week_start")[["count","uniques"]].sum().reset_index()`:
one bucket per distinct `week_start` (ascending), whose `count`/`uniques`
are the sums over exactly the rows carrying that `week_start`. -/
def groupWeekly (rows : List Row) : List Bucket :=
  (sortedKeys (rows.map weekStartOfRow)).map (fun k =>
    { week_start := k
      count := ((rows.filter (fun r => decide (weekStartOfRow r = k))).map Row.count).sum
      uniques := ((rows.filter (fun r => decide (weekStartOfRow r = k))).map Row.uniques).sum })

/-- `weekly_data[weekly_data["week_start"] + pd.Timedelta(days=6) < today]`:
keep only buckets whose week has fully elapsed. -/
def keepCompleted (buckets : List Bucket) (today : Int) : List Bucket :=
  buckets.filter (fun b => decide (b.week_start + 6 < today))

/-- Arithmetic mean of a list of integers, as an exact rational
(the sum divided by the length). -/
def ratMean (l : List Int) : Rat := mkRat l.sum l.length

/-- One row of `weekly_data` after the rolling averages and the
`report_date` column have been added. -/
structure WBucket where
  week_start : Int
  count : Int
  uniques : Int
  count_avg : Rat
  uniques_avg : Rat
  report_date : Int
deriving DecidableEq

/-- `rolling(window=3, min_periods=1).mean()` plus
`report_date = week_start + 7`, carrying the up-to-two previous
`(count, uniques)` pairs of the window. -/
def addAvgGo (p2 p1 : Option (Int × Int)) : List Bucket → List WBucket
  | [] => []
  | b :: rest =>
    let wc := (match p2 with | some x => [x.1] | none => []) ++
              (match p1 with | some x => [x.1] | none => []) ++ [b.count]
    let wu := (match p2 with | some x => [x.2] | none => []) ++
              (match p1 with | some x => [x.2] | none => []) ++ [b.uniques]
    { week_start := b.week_start, count := b.count, uniques := b.uniques
      count_avg := ratMean wc, uniques_avg := ratMean wu
      report_date := b.week_start + 7 } :: addAvgGo p1 (some (b.count, b.uniques)) rest

/-- Comparison used by `weekly_data.sort_values("report_date")`. -/
def rdLE (x y : WBucket) : Prop := x.report_date ≤ y.report_date

instance : DecidableRel rdLE := fun x y => inferInstanceAs (Decidable (x.report_date ≤ y.report_date))

instance : IsTotal WBucket rdLE := ⟨fun x y => Int.le_total x.report_date y.report_date⟩

instance : IsTrans WBucket rdLE := ⟨fun _ _ _ h1 h2 => le_trans h1 h2⟩

/-- `weekly_data.sort_values("report_date")`. -/
def sortByRD (l : List WBucket) : List WBucket := List.insertionSort rdLE l

/-- Lines 242-247: rolling averages, `report_date`, sort by `report_date`. -/
def addAvgReport (buckets : List Bucket) : List WBucket :=
  sortByRD (addAvgGo none none buckets)

/-- One raw entry of the `annotations` JSON list.  `dateKey`/`labelKey` are
`none` when the key is missing; `dateKey = some none` when the date string is
unparseable, `labelKey = some none` when the label is not a string. -/
structure RawAnn where
  isDict : Bool
  dateKey : Option (Option Int)
  labelKey : Option (Option String)
deriving DecidableEq

/-- A validated annotation: day number and label. -/
structure Ann where
  date : Int
  label : String
deriving DecidableEq

/-- The annotation validation loop (lines 288-308): non-dicts, entries with a
missing key, an unparseable or future date, or a non-string label are skipped
individually; the rest are kept in order. -/
def validAnns (today : Int) : List RawAnn → List Ann
  | [] => []
  | a :: rest =>
    if a.isDict then
      match a.dateKey, a.labelKey with
      | some dp, some lp =>
        match dp with
        | some d =>
          if today < d then validAnns today rest
          else
            match lp with
            | some s => ⟨d, s⟩ :: validAnns today rest
            | none => validAnns today rest
        | none => validAnns today rest
      | _, _ => validAnns today rest
    else validAnns today rest

/-- The `annotations` top-level JSON value when present: either not a list
(all annotations skipped with a warning) or a list of raw entries. -/
inductive AnnField where
  | notList
  | list (anns : List RawAnn)
deriving DecidableEq

/-- The `daily` top-level JSON value when present. -/
inductive DailyField where
  | notList
  | rows (rows : List RawRow)
deriving DecidableEq

/-- The parsed JSON input file `fetch_clones.json` (the summary totals are
never read by the dashboard and are omitted). -/
structure ClonesData where
  daily : Option DailyField
  annField : Option AnnField
deriving DecidableEq

/-- `clones_data.get("annotations", [])` followed by the validation loop:
the validated annotations the dashboard works with. -/
def validAnnsOf (f : Option AnnField) (today : Int) : List Ann :=
  match f with
  | none => []
  | some .notList => []
  | some (.list l) => validAnns today l

/-- Comparison used by `pd.DataFrame(valid_annotations).sort_values("date")`. -/
def annDateLE (x y : Ann) : Prop := x.date ≤ y.date

instance : DecidableRel annDateLE := fun x y => inferInstanceAs (Decidable (x.date ≤ y.date))

instance : IsTotal Ann annDateLE := ⟨fun x y => Int.le_total x.date y.date⟩

instance : IsTrans Ann annDateLE := ⟨fun _ _ _ h1 h2 => le_trans h1 h2⟩

/-- Sort the validated annotations by date. -/
def sortAnns (l : List Ann) : List Ann := List.insertionSort annDateLE l

/-- What a run of the dashboard writes to `weekly_clones.png`: either a
placeholder image carrying a message, or the real chart (the selected weekly
buckets, the in-window annotations, and the plot window). -/
inductive Output where
  | placeholder (msg : String)
  | chart (weekly : List WBucket) (anns : List Ann) (plotStart plotEnd : Int)
deriving DecidableEq

/-- `EMPTY_DASHBOARD_MESSAGE`. -/
def emptyDashboardMessage : String :=
  "Not enough data to generate a dashboard.\nOne week's data needed."

/-- Message of the empty-window placeholder (line 277). -/
def noWindowMessage : String := "No data in the selected window."

/-- Lines 281-318 and the final rendering: validate the annotations, build
`annotation_df` and sort it by `"date"` — `pd.DataFrame([])` has no columns,
so when no annotation survives validation `sort_values("date")` raises
`KeyError` — then keep the in-window annotations and draw the chart. -/
def annotateAndRender (sel : List WBucket) (plotStart plotEnd : Int)
    (annF : Option AnnField) (today : Int) : Except Err Output :=
  let v := validAnnsOf annF today
  if v.isEmpty then .error .keyErrorDate
  else
    let sorted := sortAnns v
    let inWin := sorted.filter (fun a => decide (plotStart ≤ a.date ∧ a.date ≤ plotEnd))
    .ok (.chart sel inWin plotStart plotEnd)

/-- Lines 275-278 then the annotation/plot phase: an empty selection renders
the empty-window placeholder. -/
def renderWindow (sel : List WBucket) (plotStart plotEnd : Int)
    (annF : Option AnnField) (today : Int) : Except Err Output :=
  if sel.isEmpty then .ok (.placeholder noWindowMessage)
  else annotateAndRender sel plotStart plotEnd annF today

/-- The parsed CLI options (`argparse` namespace).  `start` models the
optional `--start` string by its parse outcome through `_to_naive_utc_date`:
`none` = flag absent, `some none` = unparseable, `some (some d)` = day `d`. -/
structure Args where
  start : Option (Option Int)
  weeks : Int
deriving DecidableEq

/-- `plot_end = plot_start + pd.Timedelta(weeks=max(weeks_to_plot - 1, 0))`. -/
def plotEndOf (plotStart : Int) (weeks : Int) : Int := plotStart + 7 * max (weeks - 1) 0

/-- Explicit-start selection (lines 262-265): keep the buckets whose
`report_date` lies in the inclusive window. -/
def selectStart (weekly : List WBucket) (plotStart : Int) (weeks : Int) : List WBucket :=
  weekly.filter (fun b =>
    decide (plotStart ≤ b.report_date ∧ b.report_date ≤ plotEndOf plotStart weeks))

/-- `weekly_data.tail(n)`: the last `min n length` elements. -/
def tailN (n : Nat) (l : List WBucket) : List WBucket := l.drop (l.length - n)

/-- `weekly_data["report_date"].min()` of a slice (`none` when empty). -/
def minRD (sel : List WBucket) : Option Int :=
  match sel.map (fun b => b.report_date) with
  | [] => none
  | x :: xs => some (xs.foldl min x)

/-- `weekly_data["report_date"].max()` of a slice (`none` when empty). -/
def maxRD (sel : List WBucket) : Option Int :=
  match sel.map (fun b => b.report_date) with
  | [] => none
  | x :: xs => some (xs.foldl max x)

/-- Lines 250-278: determine the plot window from the CLI options and hand
over to the annotation/plot phase.  In explicit-start mode an unparseable
date raises a `ValueError` and a future date exits with status 2; in trailing
mode the window is derived from the retained tail slice. -/
def windowAndRender (args : Args) (weekly : List WBucket) (today : Int)
    (annF : Option AnnField) : Except Err Output :=
  match args.start with
  | some parsed =>
    match parsed with
    | none => .error .invalidStart
    | some d =>
      if today < d then .error (.sysExit 2)
      else renderWindow (selectStart weekly d args.weeks) d (plotEndOf d args.weeks) annF today
  | none =>
    let sel := tailN args.weeks.toNat weekly
    match minRD sel, maxRD sel with
    | some ps, some pe => renderWindow sel ps pe annF today
    | _, _ => .ok (.placeholder noWindowMessage)

/-- Lines 174-247: from the parsed JSON to the final `weekly_data`.
`Except.ok none` is an early placeholder return (missing/empty/short `daily`,
or an empty bucket list at some stage); `Except.ok (some weekly)` means the
window-selection stage is reached with that weekly series. -/
def weeklyOf (data : ClonesData) (now : Int) : Except Err (Option (List WBucket)) :=
  match data.daily with
  | none => .ok none
  | some .notList => .ok none
  | some (.rows rawRows) =>
    if rawRows.isEmpty then .ok none
    else
      match validateFrom now 0 rawRows with
      | .error e => .error e
      | .ok valid =>
        if valid.length < 7 then .ok none
        else
          let dfRows := valid.filter (fun r => decide (r.timestamp ≤ now))
          if dfRows.isEmpty then .ok none
          else
            let weekly1 := groupWeekly dfRows
            if weekly1.isEmpty then .ok none
            else
              let weekly2 := keepCompleted weekly1 (dayOf now)
              if weekly2.isEmpty then .ok none
              else .ok (some (addAvgReport weekly2))

/-- The body of `main` after argument parsing (lines 161-388): validate
`--weeks`, build the weekly series, select the window, render.  The single
clock `now` stands for the (few) `utcnow` reads of one run. -/
def run (args : Args) (data : ClonesData) (now : Int) : Except Err Output :=
  if args.weeks < 0 then .error (.sysExit 2)
  else
    match weeklyOf data now with
    | .error e => .error e
    | .ok none => .ok (.placeholder emptyDashboardMessage)
    | .ok (some weekly) => windowAndRender args weekly (dayOf now) data.annField

/-- The raw CLI options before date parsing. -/
structure CliArgs where
  start : Option String
  weeks : Int
deriving DecidableEq

/-- The `argparse` parser of lines 146-159: it defines exactly the two
options `--start` (a string) and `--weeks` (an int, default `NUM_WEEKS = 12`);
any other option token, a missing value, or a non-integer `--weeks` value
makes `argparse` error out with exit status 2. -/
def parseArgsFrom (acc : CliArgs) : List String → Except Err CliArgs
  | [] => .ok acc
  | t :: rest =>
    if t = "--start" then
      match rest with
      | v :: rs => parseArgsFrom { acc with start := some v } rs
      | [] => .error (.sysExit 2)
    else if t = "--weeks" then
      match rest with
      | v :: rs =>
        match v.toInt? with
        | some n => parseArgsFrom { acc with weeks := n } rs
        | none => .error (.sysExit 2)
      | [] => .error (.sysExit 2)
    else .error (.sysExit 2)

/-- `parser.parse_args(argv)` with the defaults of lines 147-158. -/
def parseArgs (argv : List String) : Except Err CliArgs :=
  parseArgsFrom { start := none, weeks := 12 } argv

/-- A raw daily row that passes every check of the validation loop. -/
def rowOkB (now : Int) (r : RawRow) : Bool :=
  match r.timestamp, r.count, r.uniques with
  | some ts, some c, some u => decide (ts ≤ now) && decide (0 ≤ c) && decide (0 ≤ u)
  | _, _, _ => false

/-- A raw daily row whose timestamp parses and is not in the future but whose
`count` is missing, non-integer or negative. -/
def badCountB (now : Int) (r : RawRow) : Bool :=
  match r.timestamp with
  | some ts => decide (ts ≤ now) && (match r.count with | none => true | some c => decide (c < 0))
  | none => false

/-- A raw daily row whose timestamp parses to an instant after `now`. -/
def futureB (now : Int) (r : RawRow) : Bool :=
  match r.timestamp with
  | some ts => decide (now < ts)
  | none => false

/-! ### Ingestion pipeline (`fetch_clones.py`)

The ingestion script itself is not part of the sources at hand (only its
tests are), so the merge and record-annotation logic below is modelled from
the specification, sections 4.1 and 4.2, and checked for consistency against
`tests/test_fetch.py`. -/

/-- A stored daily record of the persisted dataset, keyed by calendar day. -/
structure DRec where
  date : Int
  count : Nat
  uniques : Nat
deriving DecidableEq

/-- Modelled from the spec: insertion of one incoming record into the
date-sorted store; a record with the same date is overwritten (incoming
wins), others are preserved. -/
def insertRec (r : DRec) : List DRec → List DRec
  | [] => [r]
  | x :: xs =>
    if r.date < x.date then r :: x :: xs
    else if r.date = x.date then r :: xs
    else x :: insertRec r xs

/-- Modelled from the spec (§4.1): `merge(existing, incoming)` — each
incoming record overwrites any existing entry with the same date, entries not
present in `incoming` are preserved, and the result stays sorted and
de-duplicated by date. -/
def mergeDaily (existing incoming : List DRec) : List DRec :=
  incoming.foldl (fun m r => insertRec r m) existing

/-- Label of the system-generated record-marker annotation. -/
def dailyMaxLabel (c : Nat) : String := "Daily max: " ++ toString c

/-- The record-marker recognition by label (Python
`label.startswith("Daily max:")`, expressed on the character lists). -/
def isMarkerLabel (s : String) : Bool := "Daily max:".data.isPrefixOf s.data

/-- Modelled from the spec (§4.2): the record with the maximum count, ties
broken by the earliest date; on a date-ascending list the earlier record is
preferred unless a strictly larger count appears later. -/
def bestRec : List DRec → Option DRec
  | [] => none
  | r :: rest =>
    match bestRec rest with
    | none => some r
    | some b => if r.count < b.count then some b else some r

/-- Modelled from the spec (§4.2): drop every annotation recognized as a
record marker, then append exactly one fresh marker for the current maximum
when the store is non-empty. -/
def updateMaxAnn (daily : List DRec) (anns : List Ann) : List Ann :=
  let kept := anns.filter (fun a => !(isMarkerLabel a.label))
  match bestRec daily with
  | none => kept
  | some b => kept ++ [⟨b.date, dailyMaxLabel b.count⟩]

/-- The persisted state the ingestion pipeline reads and rewrites. -/
structure StoreState where
  daily : List DRec
  anns : List Ann
deriving DecidableEq

/-- Modelled from the spec (§4.4): one ingestion run — merge the incoming
batch into the store, then recompute the record-marker annotation over the
full merged store. -/
def ingest (st : StoreState) (incoming : List DRec) : StoreState :=
  let merged := mergeDaily st.daily incoming
  { daily := merged, anns := updateMaxAnn merged st.anns }

/-- The earliest record attaining the maximum count of the store. -/
def isBestAt (daily : List DRec) (b : DRec) : Prop :=
  b ∈ daily ∧ (∀ r ∈ daily, r.count ≤ b.count) ∧
    (∀ r ∈ daily, r.count = b.count → b.date ≤ r.date)

/-- The precondition the `--start` option must satisfy to pass the checks of
lines 250-258: absent, or parsed to a day not after today. -/
def startOkP (args : Args) (today : Int) : Prop :=
  match args.start with
  | none => True
  | some none => False
  | some (some d) => d ≤ today

/-! ### Concrete fixtures

Small inputs used to evaluate the model.  Day 4 (1970-01-05) is a Monday and
day 11 the following Monday; `sampleNow` is midnight of day 11, so the week
of days 4-10 has fully elapsed. -/

/-- The CLI defaults: no `--start`, `--weeks 12`. -/
def argsDefault : Args := ⟨none, 12⟩

/-- Seven valid raw rows, one per day of the week of days 4-10. -/
def weekRows : List RawRow :=
  [⟨some (4 * 86400), some 1, some 1⟩, ⟨some (5 * 86400), some 1, some 1⟩,
   ⟨some (6 * 86400), some 1, some 1⟩, ⟨some (7 * 86400), some 1, some 1⟩,
   ⟨some (8 * 86400), some 1, some 1⟩, ⟨some (9 * 86400), some 1, some 1⟩,
   ⟨some (10 * 86400), some 1, some 1⟩]

/-- Midnight of Monday, day 11. -/
def sampleNow : Int := 11 * 86400

/-- A dataset with one full week of data and no `annotations` field. -/
def dataNoAnns : ClonesData := ⟨some (.rows weekRows), none⟩

/-- A dataset with one full week of data and one valid annotation (day 5). -/
def dataOneAnn : ClonesData :=
  ⟨some (.rows weekRows), some (.list [⟨true, some (some 5), some (some "release")⟩])⟩

/-- A dataset whose first row has a negative count and whose second row has a
future timestamp (day 20 > day 11). -/
def dataBadThenFuture : ClonesData :=
  ⟨some (.rows [⟨some (5 * 86400), some (-1), some 2⟩,
                ⟨some (20 * 86400), some 3, some 2⟩]), none⟩

/-- A valid raw row on day 4. -/
def okRow1 : RawRow := ⟨some (4 * 86400), some 2, some 1⟩

/-- A valid raw row on day 5. -/
def okRow2 : RawRow := ⟨some (5 * 86400), some 3, some 2⟩

/-- A raw row with a valid timestamp (day 6) and a negative count. -/
def badCountRow : RawRow := ⟨some (6 * 86400), some (-1), some 2⟩

/-! ### Helper lemmas -/

lemma mem_insertKey {x k : Int} {l : List Int} : x ∈ insertKey k l ↔ x = k ∨ x ∈ l := by
  induction l with
  | nil => simp [insertKey]
  | cons y ys ih =>
    simp only [insertKey]
    split
    · simp [List.mem_cons]
    · split
      · next heq => subst heq; simp [List.mem_cons]
      · simp [List.mem_cons, ih]; tauto

lemma mem_sortedKeys {x : Int} {l : List Int} : x ∈ sortedKeys l ↔ x ∈ l := by
  induction l with
  | nil => simp [sortedKeys]
  | cons k ks ih => simp [sortedKeys, mem_insertKey, ih]

lemma mem_sortByRD {x : WBucket} {l : List WBucket} : x ∈ sortByRD l ↔ x ∈ l :=
  (List.perm_insertionSort rdLE l).mem_iff

lemma sortByRD_sorted (l : List WBucket) : (sortByRD l).Pairwise rdLE :=
  List.sorted_insertionSort rdLE l

lemma addAvgGo_mem {l : List Bucket} {wb : WBucket} :
    ∀ {p2 p1}, wb ∈ addAvgGo p2 p1 l →
      ∃ b ∈ l, wb.week_start = b.week_start ∧ wb.report_date = b.week_start + 7 := by
  induction l with
  | nil => intro p2 p1 h; simp [addAvgGo] at h
  | cons b rest ih =>
    intro p2 p1 h
    simp only [addAvgGo, List.mem_cons] at h
    rcases h with h | h
    · exact ⟨b, List.mem_cons_self b rest, by subst h; exact ⟨rfl, rfl⟩⟩
    · obtain ⟨c, hc, hw⟩ := ih h
      exact ⟨c, List.mem_cons_of_mem _ hc, hw⟩

lemma mem_addAvgReport {buckets : List Bucket} {wb : WBucket}
    (h : wb ∈ addAvgReport buckets) :
    ∃ b ∈ buckets, wb.week_start = b.week_start ∧ wb.report_date = b.week_start + 7 :=
  addAvgGo_mem (mem_sortByRD.mp h)

lemma keepCompleted_mem {b : Bucket} {buckets : List Bucket} {today : Int}
    (h : b ∈ keepCompleted buckets today) : b ∈ buckets ∧ b.week_start + 6 < today := by
  have h2 := List.mem_filter.mp h
  exact ⟨h2.1, by simpa using h2.2⟩

lemma run_weeklyOf_error {args : Args} {data : ClonesData} {now : Int} {e : Err}
    (hw : 0 ≤ args.weeks) (h : weeklyOf data now = Except.error e) :
    run args data now = Except.error e := by
  unfold run
  rw [if_neg (by omega), h]

lemma run_weeklyOf_none {args : Args} {data : ClonesData} {now : Int}
    (hw : 0 ≤ args.weeks) (h : weeklyOf data now = Except.ok none) :
    run args data now = Except.ok (Output.placeholder emptyDashboardMessage) := by
  unfold run
  rw [if_neg (by omega), h]

lemma run_weeklyOf_some {args : Args} {data : ClonesData} {now : Int} {weekly : List WBucket}
    (hw : 0 ≤ args.weeks) (h : weeklyOf data now = Except.ok (some weekly)) :
    run args data now = windowAndRender args weekly (dayOf now) data.annField := by
  unfold run
  rw [if_neg (by omega), h]

lemma weeklyOf_some_inv {data : ClonesData} {now : Int} {weekly : List WBucket}
    (h : weeklyOf data now = Except.ok (some weekly)) :
    ∃ dfRows : List Row,
      weekly = addAvgReport (keepCompleted (groupWeekly dfRows) (dayOf now)) := by
  unfold weeklyOf at h
  split at h
  · simp at h
  · simp at h
  · split at h
    · simp at h
    · split at h
      · simp at h
      · split at h
        · simp at h
        · simp only [] at h
          split at h
          · simp at h
          · split at h
            · simp at h
            · split at h
              · simp at h
              · exact ⟨_, ((by simpa using h : _ = weekly)).symm⟩

lemma validateFrom_error_cons {now : Int} {r : RawRow} {e : Err} {i : Nat} {l : List RawRow}
    (hok : rowOkB now r = true) (h : validateFrom now (i + 1) l = Except.error e) :
    validateFrom now i (r :: l) = Except.error e := by
  cases hts : r.timestamp with
  | none => simp [rowOkB, hts] at hok
  | some ts =>
    cases hc : r.count with
    | none => simp [rowOkB, hts, hc] at hok
    | some c =>
      cases hu : r.uniques with
      | none => simp [rowOkB, hts, hc, hu] at hok
      | some u =>
        simp only [rowOkB, hts, hc, hu, Bool.and_eq_true, decide_eq_true_eq] at hok
        obtain ⟨⟨h1, h2⟩, h3⟩ := hok
        simp only [validateFrom, hts, hc, hu]
        rw [if_neg (by omega), if_neg (by omega), if_neg (by omega), h]

lemma validateFrom_error_append {now : Int} {e : Err} :
    ∀ (pre : List RawRow) (i : Nat) (l : List RawRow),
      (∀ r ∈ pre, rowOkB now r = true) →
      validateFrom now (i + pre.length) l = Except.error e →
      validateFrom now i (pre ++ l) = Except.error e := by
  intro pre
  induction pre with
  | nil => intro i l _ h; simpa using h
  | cons r rest ih =>
    intro i l hpre h
    have hr : rowOkB now r = true := hpre r (List.mem_cons_self r rest)
    have hrec : validateFrom now (i + 1) (rest ++ l) = Except.error e := by
      apply ih (i + 1) l (fun x hx => hpre x (List.mem_cons_of_mem _ hx))
      have harith : i + 1 + rest.length = i + (r :: rest).length := by
        simp only [List.length_cons]
        omega
      rw [harith]
      exact h
    exact validateFrom_error_cons hr hrec

lemma validateFrom_badCount_head {now : Int} {bad : RawRow} (h : badCountB now bad = true)
    (i : Nat) (l : List RawRow) :
    validateFrom now i (bad :: l) = Except.error (Err.invalidCount i) := by
  cases hts : bad.timestamp with
  | none => simp [badCountB, hts] at h
  | some ts =>
    simp only [badCountB, hts, Bool.and_eq_true, decide_eq_true_eq] at h
    obtain ⟨h1, h2⟩ := h
    cases hc : bad.count with
    | none =>
      simp only [validateFrom, hts, hc]
      rw [if_neg (by omega)]
    | some c =>
      rw [hc] at h2
      simp only [decide_eq_true_eq] at h2
      simp only [validateFrom, hts, hc]
      rw [if_neg (by omega), if_pos h2]

lemma validateFrom_future_head {now : Int} {bad : RawRow} {ts : Int}
    (hts : bad.timestamp = some ts) (hf : now < ts) (i : Nat) (l : List RawRow) :
    validateFrom now i (bad :: l) = Except.error (Err.futureTimestamp i) := by
  simp only [validateFrom, hts]
  rw [if_pos hf]

lemma tailN_length (n : Nat) (l : List WBucket) : (tailN n l).length = min n l.length := by
  simp only [tailN, List.length_drop]
  omega

lemma tailN_suffix (n : Nat) (l : List WBucket) : ∃ front, l = front ++ tailN n l :=
  ⟨l.take (l.length - n), (List.take_append_drop _ l).symm⟩

lemma mem_insertRec {x r : DRec} {l : List DRec} (h : x ∈ insertRec r l) : x = r ∨ x ∈ l := by
  induction l with
  | nil => simpa [insertRec] using h
  | cons y ys ih =>
    simp only [insertRec] at h
    split at h
    · simp only [List.mem_cons] at h ⊢
      tauto
    · split at h
      · simp only [List.mem_cons] at h ⊢
        tauto
      · rcases List.mem_cons.mp h with h | h
        · right
          exact List.mem_cons.mpr (Or.inl h)
        · rcases ih h with h | h
          · exact Or.inl h
          · exact Or.inr (List.mem_cons.mpr (Or.inr h))

lemma insertRec_sorted {r : DRec} {l : List DRec}
    (h : l.Pairwise (fun a b => a.date < b.date)) :
    (insertRec r l).Pairwise (fun a b => a.date < b.date) := by
  induction l with
  | nil => simp [insertRec]
  | cons y ys ih =>
    rcases List.pairwise_cons.mp h with ⟨hy, hys⟩
    simp only [insertRec]
    split
    · next hlt =>
      refine List.pairwise_cons.mpr ⟨?_, h⟩
      intro z hz
      rcases List.mem_cons.mp hz with rfl | hz
      · exact hlt
      · exact lt_trans hlt (hy z hz)
    · split
      · next heq =>
        refine List.pairwise_cons.mpr ⟨?_, hys⟩
        intro z hz
        rw [heq]
        exact hy z hz
      · next hne hgt =>
        refine List.pairwise_cons.mpr ⟨?_, ih hys⟩
        intro z hz
        rcases mem_insertRec hz with rfl | hz
        · omega
        · exact hy z hz

lemma mergeDaily_sorted {incoming : List DRec} :
    ∀ {existing : List DRec}, existing.Pairwise (fun a b => a.date < b.date) →
      (mergeDaily existing incoming).Pairwise (fun a b => a.date < b.date) := by
  induction incoming with
  | nil => intro existing h; simpa [mergeDaily] using h
  | cons r rest ih =>
    intro existing h
    have h2 : mergeDaily existing (r :: rest) = mergeDaily (insertRec r existing) rest := rfl
    rw [h2]
    exact ih (insertRec_sorted h)

lemma bestRec_none_iff {l : List DRec} : bestRec l = none ↔ l = [] := by
  cases l with
  | nil => simp [bestRec]
  | cons r rest =>
    simp only [bestRec]
    cases bestRec rest with
    | none => simp
    | some b => by_cases hlt : r.count < b.count <;> simp [hlt]

lemma bestRec_isBest {l : List DRec} (hs : l.Pairwise (fun a b => a.date < b.date)) :
    ∀ {b}, bestRec l = some b → isBestAt l b := by
  induction l with
  | nil => intro b h; simp [bestRec] at h
  | cons r rest ih =>
    intro b h
    rcases List.pairwise_cons.mp hs with ⟨hr, hrest⟩
    simp only [bestRec] at h
    cases hbr : bestRec rest with
    | none =>
      simp only [hbr] at h
      injection h with h2
      subst h2
      have hre : rest = [] := bestRec_none_iff.mp hbr
      subst hre
      exact ⟨List.mem_cons_self _ _, by simp, by simp⟩
    | some c =>
      simp only [hbr] at h
      have hc := ih hrest hbr
      split at h
      · next hlt =>
        injection h with h2
        subst h2
        refine ⟨List.mem_cons_of_mem _ hc.1, ?_, ?_⟩
        · intro x hx
          rcases List.mem_cons.mp hx with rfl | hx
          · exact le_of_lt hlt
          · exact hc.2.1 x hx
        · intro x hx hxc
          rcases List.mem_cons.mp hx with rfl | hx
          · omega
          · exact hc.2.2 x hx hxc
      · next hge =>
        injection h with h2
        subst h2
        refine ⟨List.mem_cons_self _ _, ?_, ?_⟩
        · intro x hx
          rcases List.mem_cons.mp hx with rfl | hx
          · exact le_refl _
          · have := hc.2.1 x hx
            omega
        · intro x hx _
          rcases List.mem_cons.mp hx with rfl | hx
          · exact le_refl _
          · exact le_of_lt (hr x hx)

lemma isMarkerLabel_dailyMax (c : Nat) : isMarkerLabel (dailyMaxLabel c) = true := by
  simp [isMarkerLabel, dailyMaxLabel, String.data_append, List.isPrefixOf]

lemma filter_not_filter (p : Ann → Bool) (l : List Ann) :
    (l.filter (fun a => !(p a))).filter p = [] := by
  induction l with
  | nil => rfl
  | cons a rest ih =>
    by_cases h : p a = true
    · simp [List.filter_cons, h, ih]
    · simp only [Bool.not_eq_true] at h
      simp [List.filter_cons, h, ih]

/-! ### Claim theorems -/

/-- C1 counterexample: the claim asserts a `--year` mode that filters buckets
by calendar year and errors only on malformed or future years; but the CLI
defines no `--year` option at all, so even the valid past 4-digit year 2024
is rejected by `argparse` with exit status 2 and nothing is filtered. -/
theorem C1_counterexample :
    parseArgs ["--year", "2024"] = Except.error (Err.sysExit 2) := rfl

/-- C1 (amended): the reporting CLI has no year mode: `--year` is not a
defined option, and an invocation passing `--year` fails at argument parsing
with exit status 2 whatever the year string is; no year-based filtering of
weekly buckets exists in the tool. -/
theorem C1_no_year_mode (y : String) :
    parseArgs ["--year", y] = Except.error (Err.sysExit 2) := rfl

/-- C1 witness: `--year 1999` is rejected with exit status 2. -/
theorem C1_no_year_mode_witness :
    parseArgs ["--year", "1999"] = Except.error (Err.sysExit 2) :=
  C1_no_year_mode "1999"

/-- C8: every validated record is assigned
`week_start = day - weekday(day)` with Monday = offset 0 — the Monday at most
6 days before the record's day — and each group-by bucket sums `count` and
`uniques` over exactly the records of its Monday-aligned week; every bucket's
week holds a record and every record lands in a bucket. -/
theorem C8_weekly_bucketing :
    (∀ r : Row, weekStartOfRow r = dayOf r.timestamp - weekdayOf (dayOf r.timestamp)) ∧
    (∀ d : Int, weekdayOf (weekStartDay d) = 0 ∧ weekStartDay d ≤ d ∧ d ≤ weekStartDay d + 6) ∧
    (∀ (rows : List Row) (b : Bucket), b ∈ groupWeekly rows →
      b.count = ((rows.filter (fun r => decide (weekStartOfRow r = b.week_start))).map Row.count).sum ∧
      b.uniques = ((rows.filter (fun r => decide (weekStartOfRow r = b.week_start))).map Row.uniques).sum ∧
      ∃ r ∈ rows, weekStartOfRow r = b.week_start) ∧
    (∀ (rows : List Row) (r : Row), r ∈ rows →
      ∃ b ∈ groupWeekly rows, b.week_start = weekStartOfRow r) := by
  refine ⟨fun r => rfl, fun d => ?_, ?_, ?_⟩
  · unfold weekStartDay weekdayOf
    omega
  · intro rows b hb
    unfold groupWeekly at hb
    rcases List.mem_map.mp hb with ⟨k, hk, rfl⟩
    exact ⟨rfl, rfl, List.mem_map.mp (mem_sortedKeys.mp hk)⟩
  · intro rows r hr
    unfold groupWeekly
    exact ⟨_, List.mem_map.mpr ⟨weekStartOfRow r,
      mem_sortedKeys.mpr (List.mem_map.mpr ⟨r, hr, rfl⟩), rfl⟩, rfl⟩

/-- C8 witness: the two records of days 4 and 5 land in the Monday-4 bucket. -/
theorem C8_weekly_bucketing_witness :
    ∃ b ∈ groupWeekly [(⟨4 * 86400, 2, 1⟩ : Row), ⟨5 * 86400, 3, 2⟩],
      b.week_start = weekStartOfRow (⟨4 * 86400, 2, 1⟩ : Row) :=
  C8_weekly_bucketing.2.2.2 [⟨4 * 86400, 2, 1⟩, ⟨5 * 86400, 3, 2⟩] ⟨4 * 86400, 2, 1⟩
    (List.mem_cons_self _ _)

/-- C4: every bucket surviving the completed-week filter satisfies
`week_start + 6 < today`; hence every weekly bucket the pipeline hands to
window selection satisfies it relative to the run's clock; and a record set
confined to the current (not yet elapsed) week yields zero weekly buckets. -/
theorem C4_week_exclusion :
    (∀ (buckets : List Bucket) (today : Int) (b : Bucket),
      b ∈ keepCompleted buckets today → b.week_start + 6 < today) ∧
    (∀ (data : ClonesData) (now : Int) (weekly : List WBucket) (wb : WBucket),
      weeklyOf data now = Except.ok (some weekly) → wb ∈ weekly →
      wb.week_start + 6 < dayOf now) ∧
    (∀ (rows : List Row) (today : Int),
      (∀ r ∈ rows, weekStartOfRow r = weekStartDay today) →
      addAvgReport (keepCompleted (groupWeekly rows) today) = []) := by
  refine ⟨?_, ?_, ?_⟩
  · intro buckets today b hb
    exact (keepCompleted_mem hb).2
  · intro data now weekly wb hw hwb
    obtain ⟨dfRows, rfl⟩ := weeklyOf_some_inv hw
    obtain ⟨b, hb, hws, _⟩ := mem_addAvgReport hwb
    rw [hws]
    exact (keepCompleted_mem hb).2
  · intro rows today hcur
    have hkc : keepCompleted (groupWeekly rows) today = [] := by
      unfold keepCompleted
      rw [List.filter_eq_nil_iff]
      intro b hb
      unfold groupWeekly at hb
      rcases List.mem_map.mp hb with ⟨k, hk, rfl⟩
      obtain ⟨r, hr, hrk⟩ := List.mem_map.mp (mem_sortedKeys.mp hk)
      have hk2 : k = weekStartDay today := by rw [← hrk, hcur r hr]
      subst hk2
      simp only [decide_eq_true_eq]
      show ¬ (weekStartDay today + 6 < today)
      unfold weekStartDay weekdayOf
      omega
    rw [hkc]
    rfl

/-- C4 witness: the completed Monday-4 bucket precedes today = 11, and a lone
record on day 11 (the current Monday) yields no buckets. -/
theorem C4_week_exclusion_witness :
    ((⟨4, 7, 7⟩ : Bucket).week_start + 6 < 11) ∧
    addAvgReport (keepCompleted (groupWeekly [(⟨11 * 86400, 2, 1⟩ : Row)]) 11) = [] :=
  ⟨C4_week_exclusion.1 [⟨4, 7, 7⟩] 11 ⟨4, 7, 7⟩ (by decide),
   C4_week_exclusion.2.2 [⟨11 * 86400, 2, 1⟩] 11 (by decide)⟩

/-- C10 (ingestion, modelled from the spec): after any merge at most one
annotation carries the record-marker label; the marker is absent exactly when
the store is empty, and otherwise it is the single annotation
`{date, "Daily max: count"}` of the earliest record attaining the maximum
daily count over the full merged store. -/
theorem C10_record_marker (st : StoreState) (incoming : List DRec)
    (hsorted : st.daily.Pairwise (fun a b => a.date < b.date)) :
    (((ingest st incoming).anns.filter (fun a => isMarkerLabel a.label)).length ≤ 1) ∧
    ((ingest st incoming).daily = [] →
      (ingest st incoming).anns.filter (fun a => isMarkerLabel a.label) = []) ∧
    ((ingest st incoming).daily ≠ [] →
      ∃ b, isBestAt (ingest st incoming).daily b ∧
        (ingest st incoming).anns.filter (fun a => isMarkerLabel a.label) =
          [⟨b.date, dailyMaxLabel b.count⟩]) := by
  have hms : (mergeDaily st.daily incoming).Pairwise (fun a b => a.date < b.date) :=
    mergeDaily_sorted hsorted
  have hdaily : (ingest st incoming).daily = mergeDaily st.daily incoming := rfl
  cases hbr : bestRec (mergeDaily st.daily incoming) with
  | none =>
    have hanns : (ingest st incoming).anns =
        st.anns.filter (fun a => !(isMarkerLabel a.label)) := by
      simp only [ingest, updateMaxAnn, hbr]
    rw [hdaily, hanns, filter_not_filter]
    exact ⟨by simp, fun _ => rfl, fun hne => absurd (bestRec_none_iff.mp hbr) hne⟩
  | some b =>
    have hanns : (ingest st incoming).anns =
        st.anns.filter (fun a => !(isMarkerLabel a.label)) ++
          [⟨b.date, dailyMaxLabel b.count⟩] := by
      simp only [ingest, updateMaxAnn, hbr]
    have hfil : ((st.anns.filter (fun a => !(isMarkerLabel a.label)) ++
        [(⟨b.date, dailyMaxLabel b.count⟩ : Ann)]).filter (fun a => isMarkerLabel a.label)) =
        [⟨b.date, dailyMaxLabel b.count⟩] := by
      rw [List.filter_append, filter_not_filter]
      simp [List.filter_cons, isMarkerLabel_dailyMax]
    rw [hdaily, hanns, hfil]
    refine ⟨by simp, ?_, fun _ => ⟨b, bestRec_isBest hms hbr, rfl⟩⟩
    intro hnil
    rw [hnil] at hbr
    simp [bestRec] at hbr

/-- C10 witness: ingesting two records into an empty store yields exactly one
record marker, for the maximum (count 9, day 1). -/
theorem C10_record_marker_witness :
    (((ingest ⟨[], []⟩ [⟨0, 5, 2⟩, ⟨1, 9, 3⟩]).anns.filter
        (fun a => isMarkerLabel a.label)).length ≤ 1) ∧
    ((ingest ⟨[], []⟩ [⟨0, 5, 2⟩, ⟨1, 9, 3⟩]).daily = [] →
      (ingest ⟨[], []⟩ [⟨0, 5, 2⟩, ⟨1, 9, 3⟩]).anns.filter
        (fun a => isMarkerLabel a.label) = []) ∧
    ((ingest ⟨[], []⟩ [⟨0, 5, 2⟩, ⟨1, 9, 3⟩]).daily ≠ [] →
      ∃ b, isBestAt (ingest ⟨[], []⟩ [⟨0, 5, 2⟩, ⟨1, 9, 3⟩]).daily b ∧
        (ingest ⟨[], []⟩ [⟨0, 5, 2⟩, ⟨1, 9, 3⟩]).anns.filter
          (fun a => isMarkerLabel a.label) = [⟨b.date, dailyMaxLabel b.count⟩]) :=
  C10_record_marker ⟨[], []⟩ [⟨0, 5, 2⟩, ⟨1, 9, 3⟩] List.Pairwise.nil

/-- C3 counterexample: a dataset of three daily records in which only the
middle one is invalid (count -1).  The claim predicts a logged warning and
continued processing of the remaining valid rows; the run instead aborts with
a ValueError for row 1 before anything is rendered. -/
theorem C3_counterexample :
    run argsDefault ⟨some (.rows [okRow1, badCountRow, okRow2]), none⟩ sampleNow =
      Except.error (Err.invalidCount 1) := by decide

/-- C3 (amended): in the reporting tool an invalid daily record is not
skipped: whichever valid rows precede it, a record with a parseable
non-future timestamp and a missing, non-integer or negative count aborts the
whole run with a ValueError naming that row's index.  (Row-level
skip-and-continue applies to annotations, and to the ingestion script, not
to the dashboard's daily validation.) -/
theorem C3_invalid_record_aborts (args : Args) (now : Int)
    (pre post : List RawRow) (bad : RawRow) (annF : Option AnnField)
    (hweeks : 0 ≤ args.weeks)
    (hpre : ∀ r ∈ pre, rowOkB now r = true)
    (hbad : badCountB now bad = true) :
    run args ⟨some (.rows (pre ++ bad :: post)), annF⟩ now =
      Except.error (Err.invalidCount pre.length) := by
  have hval : validateFrom now 0 (pre ++ bad :: post) =
      Except.error (Err.invalidCount pre.length) := by
    apply validateFrom_error_append pre 0 (bad :: post) hpre
    simpa using validateFrom_badCount_head hbad pre.length post
  apply run_weeklyOf_error hweeks
  have hne : (pre ++ bad :: post).isEmpty = false := by
    cases pre <;> rfl
  simp [weeklyOf, hne, hval]

/-- C3 witness: one valid row followed by a bad-count row aborts at index 1. -/
theorem C3_invalid_record_aborts_witness :
    run argsDefault ⟨some (.rows ([okRow1] ++ badCountRow :: [])), none⟩ sampleNow =
      Except.error (Err.invalidCount [okRow1].length) :=
  C3_invalid_record_aborts argsDefault sampleNow [okRow1] [] badCountRow none
    (by decide) (by decide) (by decide)

/-- C7 counterexample: a dataset containing a future-timestamped record (row
1, day 20) preceded by a row with an invalid count (row 0).  The claim
predicts a future-timestamp error naming the offending row; the run instead
aborts with the count error of row 0 and never reports the future row. -/
theorem C7_counterexample :
    run argsDefault dataBadThenFuture sampleNow = Except.error (Err.invalidCount 0) ∧
    ∀ i : Nat, run argsDefault dataBadThenFuture sampleNow ≠
      Except.error (Err.futureTimestamp i) := by
  refine ⟨by decide, fun i h => ?_⟩
  rw [show run argsDefault dataBadThenFuture sampleNow =
    Except.error (Err.invalidCount 0) by decide] at h
  simp at h

/-- C7 (amended): a future-timestamped record aborts the run when its row is
reached: if every row before it passes validation, the run fails with a
future-timestamp ValueError naming that row's index (and, being an error, no
chart is written); an earlier invalid row aborts with its own error first. -/
theorem C7_future_timestamp_aborts (args : Args) (now : Int)
    (pre post : List RawRow) (bad : RawRow) (ts : Int) (annF : Option AnnField)
    (hweeks : 0 ≤ args.weeks)
    (hpre : ∀ r ∈ pre, rowOkB now r = true)
    (hts : bad.timestamp = some ts) (hf : now < ts) :
    run args ⟨some (.rows (pre ++ bad :: post)), annF⟩ now =
      Except.error (Err.futureTimestamp pre.length) := by
  have hval : validateFrom now 0 (pre ++ bad :: post) =
      Except.error (Err.futureTimestamp pre.length) := by
    apply validateFrom_error_append pre 0 (bad :: post) hpre
    simpa using validateFrom_future_head hts hf pre.length post
  apply run_weeklyOf_error hweeks
  have hne : (pre ++ bad :: post).isEmpty = false := by
    cases pre <;> rfl
  simp [weeklyOf, hne, hval]

/-- C7 witness: a single future-timestamped row (day 20 at clock day 11)
aborts with the future-timestamp error for row 0. -/
theorem C7_future_timestamp_aborts_witness :
    run argsDefault ⟨some (.rows (([] : List RawRow) ++
        (⟨some (20 * 86400), some 3, some 2⟩ : RawRow) :: [])), none⟩ sampleNow =
      Except.error (Err.futureTimestamp ([] : List RawRow).length) :=
  C7_future_timestamp_aborts argsDefault sampleNow [] [] ⟨some (20 * 86400), some 3, some 2⟩
    (20 * 86400) none (by decide) (by decide) rfl (by decide)

/-- C6 counterexample: a dataset with three daily records — fewer than 7 —
one of which has an invalid count.  The claim predicts a placeholder image
and a normal exit; the run instead raises the row validation error. -/
theorem C6_counterexample :
    run argsDefault ⟨some (.rows [okRow1, okRow2, badCountRow]), none⟩ sampleNow =
      Except.error (Err.invalidCount 2) := by decide

/-- C6 (amended): with a valid `--weeks`, the soft conditions return a
placeholder normally: a missing, non-list or empty `daily` field; fewer than
7 daily records all of which pass validation; any stage leaving the bucket
list empty; and an empty trailing selection (`--weeks 0`) — but records
failing validation abort the run instead of counting toward the threshold. -/
theorem C6_insufficient_data (args : Args) (data : ClonesData) (now : Int)
    (hweeks : 0 ≤ args.weeks) :
    ((data.daily = none ∨ data.daily = some DailyField.notList ∨
        data.daily = some (DailyField.rows [])) →
      run args data now = Except.ok (Output.placeholder emptyDashboardMessage)) ∧
    (∀ rows vrows, data.daily = some (DailyField.rows rows) → rows ≠ [] →
      validateFrom now 0 rows = Except.ok vrows → vrows.length < 7 →
      run args data now = Except.ok (Output.placeholder emptyDashboardMessage)) ∧
    (weeklyOf data now = Except.ok none →
      run args data now = Except.ok (Output.placeholder emptyDashboardMessage)) ∧
    (∀ weekly, weeklyOf data now = Except.ok (some weekly) → args.start = none →
      args.weeks = 0 → run args data now = Except.ok (Output.placeholder noWindowMessage)) := by
  refine ⟨?_, ?_, ?_, ?_⟩
  · intro hd
    apply run_weeklyOf_none hweeks
    rcases hd with hd | hd | hd <;> simp [weeklyOf, hd]
  · intro rows vrows hd hne hval hlen
    apply run_weeklyOf_none hweeks
    cases rows with
    | nil => exact absurd rfl hne
    | cons a l => simp [weeklyOf, hd, hval, hlen]
  · exact run_weeklyOf_none hweeks
  · intro weekly hw hstart hw0
    rw [run_weeklyOf_some hweeks hw]
    simp [windowAndRender, hstart, hw0, tailN, List.drop_length, minRD, maxRD]

/-- C6 witness: two valid rows (fewer than 7) yield the placeholder with a
normal return. -/
theorem C6_insufficient_data_witness :
    run argsDefault ⟨some (DailyField.rows [okRow1, okRow2]), none⟩ sampleNow =
      Except.ok (Output.placeholder emptyDashboardMessage) :=
  (C6_insufficient_data argsDefault ⟨some (DailyField.rows [okRow1, okRow2]), none⟩ sampleNow
      (by decide)).2.1 [okRow1, okRow2] [⟨4 * 86400, 2, 1⟩, ⟨5 * 86400, 3, 2⟩]
    rfl (by decide) (by decide) (by decide)

/-- C5 counterexample: with `--start` day 11 (a Monday, not in the future)
and `--weeks 0`, the code clamps `weeks - 1` to 0, so the window is the
single Monday `[11, 11]` and the bucket reporting on day 11 is charted — the
claim instead predicts an empty window and the placeholder. -/
theorem C5_counterexample :
    run ⟨some (some 11), 0⟩ dataOneAnn sampleNow =
      Except.ok (Output.chart [⟨4, 7, 7, 7, 7, 11⟩] [] 11 11) := by decide

/-- C5 (amended): in explicit start mode the window is
`[DATE, DATE + 7 * max (weeks - 1) 0]` — so `weeks = 0` behaves exactly like
`weeks = 1` rather than emptying the window — exactly the buckets whose
`report_date` lies in it are retained (and are the charted series, with
`plot_start = DATE` and `plot_end` as above); a future DATE exits with status
2, and the placeholder appears exactly when no bucket falls in the window. -/
theorem C5_start_mode :
    (∀ (weekly : List WBucket) (d weeks : Int) (b : WBucket),
      b ∈ selectStart weekly d weeks ↔
        b ∈ weekly ∧ d ≤ b.report_date ∧ b.report_date ≤ d + 7 * max (weeks - 1) 0) ∧
    (∀ (weekly : List WBucket) (d : Int), selectStart weekly d 0 = selectStart weekly d 1) ∧
    (∀ (args : Args) (data : ClonesData) (now : Int) (weekly : List WBucket) (d : Int),
      weeklyOf data now = Except.ok (some weekly) → 0 ≤ args.weeks →
      args.start = some (some d) → dayOf now < d →
      run args data now = Except.error (Err.sysExit 2)) ∧
    (∀ (args : Args) (data : ClonesData) (now : Int) (weekly : List WBucket) (d : Int),
      weeklyOf data now = Except.ok (some weekly) → 0 ≤ args.weeks →
      args.start = some (some d) → d ≤ dayOf now →
      selectStart weekly d args.weeks = [] →
      run args data now = Except.ok (Output.placeholder noWindowMessage)) ∧
    (∀ (args : Args) (data : ClonesData) (now : Int) (weekly : List WBucket) (d : Int)
       (w : List WBucket) (a : List Ann) (ps pe : Int),
      weeklyOf data now = Except.ok (some weekly) → 0 ≤ args.weeks →
      args.start = some (some d) →
      run args data now = Except.ok (Output.chart w a ps pe) →
      w = selectStart weekly d args.weeks ∧ ps = d ∧ pe = plotEndOf d args.weeks) := by
  refine ⟨?_, ?_, ?_, ?_, ?_⟩
  · intro weekly d weeks b
    simp [selectStart, List.mem_filter, plotEndOf, and_assoc]
  · intro weekly d
    have hpe : plotEndOf d 0 = plotEndOf d 1 := by
      unfold plotEndOf
      norm_num
    simp [selectStart, hpe]
  · intro args data now weekly d hw hweeks hstart hfut
    rw [run_weeklyOf_some hweeks hw]
    simp [windowAndRender, hstart, hfut]
  · intro args data now weekly d hw hweeks hstart hle hsel
    rw [run_weeklyOf_some hweeks hw]
    simp [windowAndRender, hstart, not_lt.mpr hle, renderWindow, hsel]
  · intro args data now weekly d w a ps pe hw hweeks hstart hrun
    rw [run_weeklyOf_some hweeks hw] at hrun
    simp only [windowAndRender, hstart] at hrun
    by_cases hfut : dayOf now < d
    · rw [if_pos hfut] at hrun
      simp at hrun
    · rw [if_neg hfut] at hrun
      unfold renderWindow at hrun
      by_cases hsel : (selectStart weekly d args.weeks).isEmpty = true
      · rw [if_pos hsel] at hrun
        simp at hrun
      · rw [if_neg hsel] at hrun
        simp only [annotateAndRender] at hrun
        by_cases hann : (validAnnsOf data.annField (dayOf now)).isEmpty = true
        · rw [if_pos hann] at hrun
          simp at hrun
        · rw [if_neg hann] at hrun
          simp only [Except.ok.injEq, Output.chart.injEq] at hrun
          obtain ⟨h1, _, h3, h4⟩ := hrun
          exact ⟨h1.symm, h3.symm, h4.symm⟩

/-- C5 witness: a future `--start` (day 12 at clock day 11) exits with
status 2. -/
theorem C5_start_mode_witness :
    run ⟨some (some 12), 3⟩ dataNoAnns sampleNow = Except.error (Err.sysExit 2) :=
  C5_start_mode.2.2.1 ⟨some (some 12), 3⟩ dataNoAnns sampleNow [⟨4, 7, 7, 7, 7, 11⟩] 12
    (by decide) (by decide) rfl (by decide)

/-- C9: in trailing mode a negative `--weeks` exits with status 2; the tail
slice keeps exactly the last `min weeks length` buckets (a suffix of the
series, which is sorted ascending by `report_date`); `weeks = 0` gives the
empty slice and the placeholder; and a charted trailing run plots exactly the
tail slice with `plot_start`/`plot_end` its minimum/maximum `report_date`. -/
theorem C9_trailing_mode :
    (∀ (args : Args) (data : ClonesData) (now : Int),
      args.weeks < 0 → run args data now = Except.error (Err.sysExit 2)) ∧
    (∀ (weekly : List WBucket) (n : Nat),
      (tailN n weekly).length = min n weekly.length ∧
      ∃ front, weekly = front ++ tailN n weekly) ∧
    (∀ buckets : List Bucket, (addAvgReport buckets).Pairwise rdLE) ∧
    (∀ (args : Args) (data : ClonesData) (now : Int) (weekly : List WBucket),
      weeklyOf data now = Except.ok (some weekly) → args.start = none →
      args.weeks = 0 → run args data now = Except.ok (Output.placeholder noWindowMessage)) ∧
    (∀ (args : Args) (data : ClonesData) (now : Int) (weekly : List WBucket)
       (w : List WBucket) (a : List Ann) (ps pe : Int),
      weeklyOf data now = Except.ok (some weekly) → args.start = none → 0 ≤ args.weeks →
      run args data now = Except.ok (Output.chart w a ps pe) →
      w = tailN args.weeks.toNat weekly ∧ minRD w = some ps ∧ maxRD w = some pe) := by
  refine ⟨?_, ?_, ?_, ?_, ?_⟩
  · intro args data now hneg
    unfold run
    rw [if_pos hneg]
  · intro weekly n
    exact ⟨tailN_length n weekly, tailN_suffix n weekly⟩
  · intro buckets
    exact sortByRD_sorted _
  · intro args data now weekly hw hstart hw0
    rw [run_weeklyOf_some (by omega) hw]
    simp [windowAndRender, hstart, hw0, tailN, List.drop_length, minRD, maxRD]
  · intro args data now weekly w a ps pe hw hstart hweeks hrun
    rw [run_weeklyOf_some hweeks hw] at hrun
    simp only [windowAndRender, hstart] at hrun
    split at hrun
    · next ps2 pe2 hmin hmax =>
      unfold renderWindow at hrun
      by_cases hsel : (tailN args.weeks.toNat weekly).isEmpty = true
      · rw [if_pos hsel] at hrun
        simp at hrun
      · rw [if_neg hsel] at hrun
        simp only [annotateAndRender] at hrun
        by_cases hann : (validAnnsOf data.annField (dayOf now)).isEmpty = true
        · rw [if_pos hann] at hrun
          simp at hrun
        · rw [if_neg hann] at hrun
          simp only [Except.ok.injEq, Output.chart.injEq] at hrun
          obtain ⟨h1, _, h3, h4⟩ := hrun
          subst h1
          exact ⟨rfl, by rw [hmin, h3], by rw [hmax, h4]⟩
    · simp at hrun

/-- C9 witness: `--weeks -1` exits with status 2. -/
theorem C9_trailing_mode_witness :
    run ⟨none, -1⟩ dataNoAnns sampleNow = Except.error (Err.sysExit 2) :=
  C9_trailing_mode.1 ⟨none, -1⟩ dataNoAnns sampleNow (by decide)

/-- C2: whenever a run reaches the chart phase (at least 7 valid records, no
earlier error or placeholder path taken) but no annotation survived
validation — the field being absent, empty, not a list, or every entry
dropped — building `annotation_df` raises the pandas `KeyError` on
`sort_values("date")`, so the run errors out before the chart is written
instead of rendering an annotation-free chart. -/
theorem C2_empty_annotation_list_raises (args : Args) (data : ClonesData) (now : Int)
    (hweeks : 0 ≤ args.weeks)
    (hwk : ∃ weekly, weeklyOf data now = Except.ok (some weekly))
    (hstart : startOkP args (dayOf now))
    (hempty : validAnnsOf data.annField (dayOf now) = [])
    (hnp : ∀ msg, run args data now ≠ Except.ok (Output.placeholder msg)) :
    run args data now = Except.error Err.keyErrorDate := by
  obtain ⟨weekly, hw⟩ := hwk
  rw [run_weeklyOf_some hweeks hw] at hnp ⊢
  cases hargs : args.start with
  | some p =>
    cases p with
    | none =>
      simp only [startOkP, hargs] at hstart
    | some d =>
      have hd : d ≤ dayOf now := by simpa [startOkP, hargs] using hstart
      simp only [windowAndRender, hargs] at hnp ⊢
      rw [if_neg (not_lt.mpr hd)] at hnp ⊢
      unfold renderWindow at hnp ⊢
      by_cases hsel : (selectStart weekly d args.weeks).isEmpty = true
      · rw [if_pos hsel] at hnp
        exact absurd rfl (hnp noWindowMessage)
      · rw [if_neg hsel]
        simp [annotateAndRender, hempty]
  | none =>
    simp only [windowAndRender, hargs] at hnp ⊢
    cases hmin : minRD (tailN args.weeks.toNat weekly) with
    | none =>
      simp only [hmin] at hnp
      exact absurd rfl (hnp noWindowMessage)
    | some ps =>
      cases hmax : maxRD (tailN args.weeks.toNat weekly) with
      | none =>
        simp only [hmin, hmax] at hnp
        exact absurd rfl (hnp noWindowMessage)
      | some pe =>
        simp only [hmin, hmax] at hnp ⊢
        unfold renderWindow at hnp ⊢
        by_cases hsel : (tailN args.weeks.toNat weekly).isEmpty = true
        · rw [if_pos hsel] at hnp
          exact absurd rfl (hnp noWindowMessage)
        · rw [if_neg hsel]
          simp [annotateAndRender, hempty]

/-- C2 witness: the one-week dataset with no `annotations` field reaches the
chart phase and errors with the `KeyError`. -/
theorem C2_empty_annotation_list_raises_witness :
    run argsDefault dataNoAnns sampleNow = Except.error Err.keyErrorDate := by
  apply C2_empty_annotation_list_raises argsDefault dataNoAnns sampleNow (by decide)
    ⟨[⟨4, 7, 7, 7, 7, 11⟩], by decide⟩ trivial rfl
  intro msg h
  rw [show run argsDefault dataNoAnns sampleNow = Except.error Err.keyErrorDate by decide] at h
  simp at h

end ClonePulse
